import Mathlib

/-!
# Verification of `dcmrmel` (src/dcmrmel/dcmrmel.py)

Shallow embedding of the DICOM element-removal tool `dcmrmel`.

The tool is built on pydicom.  A parsed DICOM dataset is modelled as a
list of elements ordered by tag with distinct tags (pydicom stores a
dict keyed by tag and `Dataset.walk` iterates `sorted(keys)`, so the
sorted unique list is the walk order).  An element is either a
primitive element `(tag, VR, value)` or a sequence element (VR "SQ")
whose value is a list of item datasets.  Tags are 32-bit numbers; the
group of a tag is its upper 16 bits.

`Dataset.walk(callback)` in pydicom snapshots the sorted tag list, and
for each tag looks the element up, calls the callback, and then — only
if the tag is still present and the element has VR "SQ" — recurses into
every item dataset of the sequence.  All three removal helpers of
`dcmrmel` pass a callback that deletes only the element currently being
visited (`del ds_a[elem.tag]`), so the walk-with-deleting-callback is
embedded directly as the structural recursion `walkRemove` below: an
element matching the removal predicate is dropped (and, being deleted,
its sequence items are not recursed into); a non-matching sequence
element is kept with the walk applied to each of its items.
-/

/-- A DICOM data element: a primitive `(tag, VR, value)` triple, or a
sequence element (VR "SQ") whose value is a list of item datasets.
A dataset is a `List DElem` in pydicom's walk order (sorted by tag). -/
inductive DElem : Type where
  | prim (tag : Nat) (vr : String) (val : String) : DElem
  | sq (tag : Nat) (items : List (List DElem)) : DElem

/-- The tag of an element (`elem.tag` in pydicom). -/
def DElem.tag : DElem → Nat
  | .prim t _ _ => t
  | .sq t _ => t

/-- The VR of an element (`elem.VR` in pydicom); a sequence element
reads back with VR "SQ". -/
def DElem.vr : DElem → String
  | .prim _ v _ => v
  | .sq _ _ => "SQ"

/-- The group number of an element's tag (`elem.tag.group` in pydicom):
the upper 16 bits of the 32-bit tag. -/
def DElem.group (e : DElem) : Nat := e.tag / 65536

mutual
/-- `ds.walk(callback)` where the callback is
`if p elem: del ds_a[elem.tag]` — the shape shared by `remove_tags`,
`remove_vr_tags` and `remove_group_tags` in dcmrmel.py (and by
pydicom's own `remove_private_tags`).  A matching element is deleted;
pydicom then skips recursion into it (`tag in self` fails), so its
items are dropped wholesale.  A kept sequence element has the walk
applied to each item dataset. -/
def walkRemove (p : DElem → Bool) : List DElem → List DElem
  | [] => []
  | e :: rest =>
    if p e then walkRemove p rest
    else
      (match e with
        | .prim t v s => DElem.prim t v s
        | .sq t items => DElem.sq t (walkRemoveItems p items)) :: walkRemove p rest

/-- The walk applied to each item dataset of a sequence element. -/
def walkRemoveItems (p : DElem → Bool) : List (List DElem) → List (List DElem)
  | [] => []
  | d :: ds => walkRemove p d :: walkRemoveItems p ds
end

mutual
/-- The tags of the elements on which `ds.walk(callback)` invokes the
callback, in visit order, when the callback deletes exactly the
elements matching `p`: every element of the snapshot list is visited,
and the items of a sequence element are descended into only when the
element was not just deleted. -/
def walkVisited (p : DElem → Bool) : List DElem → List Nat
  | [] => []
  | e :: rest =>
    e.tag ::
      ((if p e then []
        else match e with
          | .prim _ _ _ => []
          | .sq _ items => walkVisitedItems p items) ++ walkVisited p rest)

/-- Visited tags inside the item datasets of a kept sequence element. -/
def walkVisitedItems (p : DElem → Bool) : List (List DElem) → List Nat
  | [] => []
  | d :: ds => walkVisited p d ++ walkVisitedItems p ds
end

mutual
/-- Every element of a dataset, at every nesting depth: each element
itself, followed by (for sequence elements) all elements of its items. -/
def allElems : List DElem → List DElem
  | [] => []
  | e :: rest =>
    e ::
      ((match e with
        | .prim _ _ _ => []
        | .sq _ items => allElemsItems items) ++ allElems rest)

/-- All elements of a list of item datasets. -/
def allElemsItems : List (List DElem) → List DElem
  | [] => []
  | d :: ds => allElems d ++ allElemsItems ds
end

/-- `remove_tags(ds, tags_to_rm)` from dcmrmel.py: walk the dataset
deleting every element whose tag is in `tags_to_rm`. -/
def remove_tags (ds : List DElem) (tags_to_rm : List Nat) : List DElem :=
  walkRemove (fun e => tags_to_rm.contains e.tag) ds

/-- `remove_vr_tags(ds, vrs_to_remove)` from dcmrmel.py: walk the
dataset deleting every element whose VR is in `vrs_to_remove`. -/
def remove_vr_tags (ds : List DElem) (vrs_to_remove : List String) : List DElem :=
  walkRemove (fun e => vrs_to_remove.contains e.vr) ds

/-- One hexadecimal digit, as accepted by Python's `int(s, 16)`. -/
def hexDigit? (c : Char) : Option Nat :=
  if '0' ≤ c ∧ c ≤ '9' then some (c.toNat - '0'.toNat)
  else if 'a' ≤ c ∧ c ≤ 'f' then some (c.toNat - 'a'.toNat + 10)
  else if 'A' ≤ c ∧ c ≤ 'F' then some (c.toNat - 'A'.toNat + 10)
  else none

/-- Fold a nonempty list of hex digits into a number; `none` on an
empty list or a non-hex character. -/
def hexDigits? (cs : List Char) : Option Nat :=
  match cs with
  | [] => none
  | _ =>
    cs.foldl
      (fun acc c =>
        match acc, hexDigit? c with
        | some a, some d => some (a * 16 + d)
        | _, _ => none)
      (some 0)

/-- Python's `int(group, 16)` as used on dcmrmel's `--rm-group`
arguments: an optional `0x`/`0X` prefix followed by hex digits.
`none` models the `ValueError` Python raises on anything else (signs
and surrounding whitespace, which the tool's documented inputs never
carry, are not modelled). -/
def pyIntHex (s : String) : Option Nat :=
  let cs := s.data
  if cs.take 2 = ['0', 'x'] ∨ cs.take 2 = ['0', 'X'] then hexDigits? (cs.drop 2)
  else hexDigits? cs

/-- `remove_group_tags(ds, groups_to_remove)` from dcmrmel.py: parse
each group string with `int(group, 16)` (a parse failure raises, hence
`none`), then walk the dataset deleting every element whose tag group
is in the parsed list. -/
def remove_group_tags (ds : List DElem) (groups_to_remove : List String) :
    Option (List DElem) :=
  (groups_to_remove.mapM pyIntHex).map
    (fun group_rm => walkRemove (fun e => group_rm.contains e.group) ds)

/-- pydicom's `Dataset.remove_private_tags()`: walk the dataset
deleting every element whose tag is private, i.e. has an odd group
number. -/
def removePrivateTags (ds : List DElem) : List DElem :=
  walkRemove (fun e => e.group % 2 == 1) ds

mutual
/-- Spec-side description of one removal pass (spec §4.3, §8): keep
exactly the elements satisfying `keep`, recursing into the item
datasets of every kept sequence element.  Used to compare the
walk-based code against the spec's wording. -/
def specKeep (keep : DElem → Bool) : List DElem → List DElem
  | [] => []
  | e :: rest =>
    if keep e then specKeepElem keep e :: specKeep keep rest
    else specKeep keep rest

/-- A kept element, with the filter applied inside its items. -/
def specKeepElem (keep : DElem → Bool) : DElem → DElem
  | .prim t v s => .prim t v s
  | .sq t items => .sq t (specKeepItems keep items)

/-- The filter applied to each item dataset of a sequence element. -/
def specKeepItems (keep : DElem → Bool) : List (List DElem) → List (List DElem)
  | [] => []
  | d :: ds => specKeep keep d :: specKeepItems keep ds
end

mutual
/-- A dataset with the item datasets of every element matching `p`
emptied out: the tags of `allElems (pruneMatched p ds)` are exactly
the tags on which the deleting walk invokes its callback. -/
def pruneMatched (p : DElem → Bool) : List DElem → List DElem
  | [] => []
  | e :: rest =>
    (if p e then
      match e with
      | .prim t v s => DElem.prim t v s
      | .sq t _ => DElem.sq t []
    else
      match e with
      | .prim t v s => DElem.prim t v s
      | .sq t items => DElem.sq t (pruneMatchedItems p items)) :: pruneMatched p rest

/-- `pruneMatched` applied to each item dataset. -/
def pruneMatchedItems (p : DElem → Bool) : List (List DElem) → List (List DElem)
  | [] => []
  | d :: ds => pruneMatched p d :: pruneMatchedItems p ds
end

/-- The fragment of the standard DICOM data dictionary (keyword →
32-bit tag) that pydicom's keyword resolution consults for the
keywords appearing in this repository. -/
def dicomDict : List (String × Nat) :=
  [("PatientName", 0x00100010),
   ("PatientID", 0x00100020),
   ("PatientBirthDate", 0x00100030),
   ("StudyDate", 0x00080020),
   ("SOPInstanceUID", 0x00080018),
   ("RepetitionTime", 0x00180080),
   ("EchoTime", 0x00180081),
   ("MediaStorageSOPClassUID", 0x00020003),
   ("MediaStorageSOPInstanceUID", 0x00020002),
   ("TransferSyntaxUID", 0x00020010)]

/-- `pydicom.tag.Tag(s)` on a string argument, as used on dcmrmel's
`--rm-tag` arguments: a data-dictionary keyword resolves through the
dictionary, otherwise the string is read as a hexadecimal tag literal;
`none` models the exception raised when neither applies. -/
def pyTag (s : String) : Option Nat :=
  match dicomDict.find? (fun kv => kv.1 == s) with
  | some kv => some kv.2
  | none => pyIntHex s

/-- The UID constant `pydicom.uid.MediaStorageDirectoryStorage`
identifying a DICOMDIR index file. -/
def MediaStorageDirectoryStorage : String := "1.2.840.10008.1.3.10"

/-- The tag of the file-meta element `MediaStorageSOPClassUID`. -/
def tagMediaStorageSOPClassUID : Nat := 0x00020003

/-- `ds.get(tag, None)` restricted to primitive elements: the value of
the element with the given tag, or `none` when absent (the one use in
dcmrmel reads the UI element `MediaStorageSOPClassUID`). -/
def getValue (ds : List DElem) (t : Nat) : Option String :=
  match ds.find? (fun e => e.tag == t) with
  | some (.prim _ _ v) => some v
  | _ => none

/-- A parsed DICOM file as dcmrmel sees it: the file-meta sub-dataset
(`ds.file_meta`) and the main dataset. -/
structure DicomFile where
  file_meta : List DElem
  dataset : List DElem

/-- The parsed command-line flags of dcmrmel (`args` in `main`).
`rm_vr`, `rm_group` and `rm_tag` are `none` when the flag was not
given; argparse's `nargs="+"` makes a given list non-empty. -/
structure Args where
  no_backup : Bool
  rm_private : Bool
  rm_vr : Option (List String)
  rm_group : Option (List String)
  rm_tag : Option (List String)

/-- Lines 206-208 of `main`:
`ds.file_meta.get("MediaStorageSOPClassUID", None)` equals
`pydicom.uid.MediaStorageDirectoryStorage`. -/
def isDicomDir (f : DicomFile) : Bool :=
  getValue f.file_meta tagMediaStorageSOPClassUID == some MediaStorageDirectoryStorage

/-- Lines 214-231 of `main`: the removal passes applied to one loaded
dataset, in source order — private-tag removal (main dataset only),
then VR removal, then group removal, then explicit-tag removal, the
latter three applied to the main dataset and then to the file-meta
sub-dataset.  `none` models the exception raised by `int(group, 16)`
or `pydicom.tag.Tag` on an unparsable argument. -/
def applyRemovals (args : Args) (f : DicomFile) : Option DicomFile := do
  let f1 :=
    if args.rm_private then { f with dataset := removePrivateTags f.dataset } else f
  let f2 ←
    match args.rm_vr with
    | none => pure f1
    | some vrs =>
        pure { f1 with
          dataset := remove_vr_tags f1.dataset vrs,
          file_meta := remove_vr_tags f1.file_meta vrs }
  let f3 ←
    match args.rm_group with
    | none => pure f2
    | some gs => do
        let d ← remove_group_tags f2.dataset gs
        let m ← remove_group_tags f2.file_meta gs
        pure { f2 with dataset := d, file_meta := m }
  match args.rm_tag with
  | none => pure f3
  | some ts =>
      if ts.isEmpty then pure f3
      else do
        let tag_to_rm_list ← ts.mapM pyTag
        pure { f3 with
          dataset := remove_tags f3.dataset tag_to_rm_list,
          file_meta := remove_tags f3.file_meta tag_to_rm_list }

/-- A filesystem effect of the per-file loop body of `main`:
`shutil.copy(fp, fp_bak)` or `ds.save_as(fp)`. -/
inductive FsAction where
  | copy (src : String) (dst : String) : FsAction
  | save (path : String) (content : DicomFile) : FsAction

/-- `fp.with_suffix(fp.suffix + ".bak")`: the old suffix is replaced
by itself followed by `.bak`, i.e. `.bak` is appended to the name. -/
def bakPath (fp : String) : String := fp ++ ".bak"

/-- Lines 205-233 of `main`: the body of the per-file loop, as the
list of filesystem effects it performs, given the dataset parsed from
the file.  A DICOMDIR file is skipped (`continue`) before the backup
copy; otherwise the backup copy (unless `--no-backup`) precedes the
removal passes, and the mutated dataset is saved over the original
path.  `none` models an exception escaping the loop. -/
def processFile (args : Args) (fp : String) (f : DicomFile) :
    Option (List FsAction) :=
  if isDicomDir f then some []
  else
    let pre := if args.no_backup then [] else [FsAction.copy fp (bakPath fp)]
    match applyRemovals args f with
    | none => none
    | some f2 => some (pre ++ [FsAction.save fp f2])

/-- A filesystem: file contents (as the dataset they parse to) by
path. -/
def Fs : Type := String → Option DicomFile

/-- Running a list of filesystem effects: `copy` duplicates the source
file's current content at the destination; `save` overwrites the path
with the serialized dataset. -/
def runFs : List FsAction → Fs → Fs
  | [], fs => fs
  | FsAction.copy s d :: rest, fs =>
      runFs rest (fun p => if p = d then fs s else fs p)
  | FsAction.save pth c :: rest, fs =>
      runFs rest (fun p => if p = pth then some c else fs p)

/-- The input path of `make_dcm_fp_list`, classified as `pth.is_file()`
/ `pth.is_dir()` / neither, carrying for a file whether
`pydicom.misc.is_dicom` recognizes it, and for a directory the files
of the `os.walk` enumeration each with its `is_dicom` verdict. -/
inductive InputPath where
  | file (pth : String) (isDicom : Bool) : InputPath
  | dir (pth : String) (files : List (String × Bool)) : InputPath
  | neither (pth : String) : InputPath

/-- A fatal exit: the message written to stderr and the process exit
code passed to `sys.exit`. -/
structure FatalExit where
  message : String
  code : Nat

/-- `make_dcm_fp_list(pth)` from dcmrmel.py: a single file is included
iff it sniffs as DICOM; a directory contributes every walked file that
sniffs as DICOM, in walk order; any other path writes a fixed-format
message to stderr and exits with code 1, as does an empty result
list. -/
def make_dcm_fp_list (pth : InputPath) : Except FatalExit (List String) :=
  match pth with
  | .neither p =>
      .error ⟨"ERROR: " ++ p ++ " is neither a file or directory\n", 1⟩
  | .file p d =>
      let fp_list := if d then [p] else []
      if fp_list.isEmpty then
        .error ⟨"ERROR: No valid DICOM files found, exiting\n", 1⟩
      else .ok fp_list
  | .dir _ files =>
      let fp_list := (files.filter (fun fb => fb.2)).map (fun fb => fb.1)
      if fp_list.isEmpty then
        .error ⟨"ERROR: No valid DICOM files found, exiting\n", 1⟩
      else .ok fp_list

/-- Lines 191-193 of `main`: when `sys.argv` holds only the program
name, `"-h"` is appended before `parse_args` runs. -/
def effectiveArgv (argv : List String) : List String :=
  if argv.length = 1 then argv ++ ["-h"] else argv

/-- Modelled from the spec: argparse's `parse_args` prints the help
text and exits the process with status 0 whenever `-h` is among the
parsed arguments (the argparse library itself is outside this
repository).  The early exit is reported as
`(printed help text, exit status)`; `none` means parsing proceeds. -/
def argparseHelpExit (argv : List String) : Option (Bool × Nat) :=
  if (argv.drop 1).contains "-h" then some (true, 0) else none

/-- The CLI outcome of `main` up to argument parsing: the early exit
produced by the no-argument case, if any. -/
def cliEarlyExit (argv : List String) : Option (Bool × Nat) :=
  argparseHelpExit (effectiveArgv argv)

/-- The candidate file list built by `make_dcm_fp_list` before the
emptiness check: the files recognized as DICOM. -/
def discoveredFiles (pth : InputPath) : List String :=
  match pth with
  | .neither _ => []
  | .file p d => if d then [p] else []
  | .dir _ files => (files.filter (fun fb => fb.2)).map (fun fb => fb.1)

/-- Line 214-215 of `main`: the `--rm-private` pass, applied only to
the main dataset. -/
def privatePass (f : DicomFile) : DicomFile :=
  { f with dataset := removePrivateTags f.dataset }

/-- Lines 217-219 of `main`: the `--rm-vr` pass, applied to the main
dataset and to the file-meta sub-dataset. -/
def vrPass (vrs : List String) (f : DicomFile) : DicomFile :=
  { f with
    dataset := remove_vr_tags f.dataset vrs,
    file_meta := remove_vr_tags f.file_meta vrs }

/-- Lines 221-223 of `main` with the `--rm-group` arguments already
parsed by `int(group, 16)`: the group pass, applied to the main
dataset and to the file-meta sub-dataset. -/
def groupPassParsed (group_rm : List Nat) (f : DicomFile) : DicomFile :=
  { f with
    dataset := walkRemove (fun e => group_rm.contains e.group) f.dataset,
    file_meta := walkRemove (fun e => group_rm.contains e.group) f.file_meta }

/-- Lines 225-231 of `main` with the `--rm-tag` arguments already
resolved by `pydicom.tag.Tag`: the explicit-tag pass, applied to the
main dataset and to the file-meta sub-dataset. -/
def tagPassParsed (tag_to_rm_list : List Nat) (f : DicomFile) : DicomFile :=
  { f with
    dataset := remove_tags f.dataset tag_to_rm_list,
    file_meta := remove_tags f.file_meta tag_to_rm_list }

/-- File-meta of an ordinary (MR image) DICOM file, as in the
repository's tests. -/
def exFileMeta : List DElem :=
  [DElem.prim 0x00020002 "UI" "4.5.6.7",
   DElem.prim 0x00020003 "UI" "1.2.840.10008.5.1.4.1.1.4",
   DElem.prim 0x00020010 "UI" "1.2.840.10008.1.2.1"]

/-- An ordinary DICOM file with a date (VR "DA"), a PatientName, a
group-0x0018 element, and a sequence nesting a further date. -/
def exFile : DicomFile :=
  { file_meta := exFileMeta,
    dataset :=
      [DElem.prim 0x00080020 "DA" "20220101",
       DElem.prim 0x00100010 "PN" "SURNAME^Firstname",
       DElem.prim 0x00180080 "DS" "2000",
       DElem.sq 0x00400275
         [[DElem.prim 0x00080020 "DA" "20220102",
           DElem.prim 0x00081030 "LO" "Study A"]]] }

/-- A DICOM file with no element of group 0x0018 at any depth. -/
def exFileNoG18 : DicomFile :=
  { file_meta :=
      [DElem.prim 0x00020003 "UI" "1.2.840.10008.5.1.4.1.1.4"],
    dataset :=
      [DElem.prim 0x00080020 "DA" "20220101",
       DElem.prim 0x00100010 "PN" "SURNAME^Firstname",
       DElem.sq 0x00400275 [[DElem.prim 0x00081030 "LO" "Study A"]]] }

/-- A DICOMDIR index file: its file-meta SOP class is
`MediaStorageDirectoryStorage`. -/
def exDicomDir : DicomFile :=
  { file_meta :=
      [DElem.prim 0x00020003 "UI" "1.2.840.10008.1.3.10"],
    dataset := [DElem.prim 0x00041130 "CS" "FILESET"] }

/-- A dataset whose only top-level element is a group-0x0018 sequence
with one nested element. -/
def exSeqDs : List DElem :=
  [DElem.sq 0x00181000 [[DElem.prim 0x00100010 "PN" "X"]]]

/-- A small filesystem holding one DICOM file. -/
def exFs : Fs :=
  fun p => if p = "scan.dcm" then some exFile else none

mutual
/-- The deleting walk computes exactly the spec-side recursive filter
that keeps the non-matching elements. -/
theorem walkRemove_eq_specKeep (p : DElem → Bool) :
    ∀ ds : List DElem, walkRemove p ds = specKeep (fun e => !(p e)) ds
  | [] => by simp [walkRemove, specKeep]
  | e :: rest => by
      have ih := walkRemove_eq_specKeep p rest
      cases e with
      | prim t v s =>
          by_cases hp : p (DElem.prim t v s) <;>
            simp [walkRemove, specKeep, specKeepElem, hp, ih]
      | sq t items =>
          have ihi := walkRemoveItems_eq_specKeepItems p items
          by_cases hp : p (DElem.sq t items) <;>
            simp [walkRemove, specKeep, specKeepElem, hp, ih, ihi]

/-- Item-dataset version of `walkRemove_eq_specKeep`. -/
theorem walkRemoveItems_eq_specKeepItems (p : DElem → Bool) :
    ∀ items : List (List DElem),
      walkRemoveItems p items = specKeepItems (fun e => !(p e)) items
  | [] => by simp [walkRemoveItems, specKeepItems]
  | d :: ds => by
      have ih1 := walkRemove_eq_specKeep p d
      have ih2 := walkRemoveItems_eq_specKeepItems p ds
      simp [walkRemoveItems, specKeepItems, ih1, ih2]
end

/-- Predicates that look only at a sequence element's tag (as the VR,
group and tag predicates of dcmrmel all do) are unaffected by what the
walk does inside the element's items. -/
def ItemBlind (p : DElem → Bool) : Prop :=
  ∀ (t : Nat) (items items' : List (List DElem)),
    p (DElem.sq t items) = p (DElem.sq t items')

mutual
/-- After a deleting walk with an item-blind predicate, no element at
any depth of the result matches the predicate. -/
theorem walkRemove_no_match (p : DElem → Bool) (hp : ItemBlind p) :
    ∀ ds : List DElem, ∀ e ∈ allElems (walkRemove p ds), p e = false
  | [], e, he => by simp [walkRemove, allElems] at he
  | a :: rest, e, he => by
      have ih := walkRemove_no_match p hp rest
      cases a with
      | prim t v s =>
          by_cases hpa : p (DElem.prim t v s)
          · rw [walkRemove] at he
            simp only [hpa, if_pos] at he
            exact ih e he
          · rw [walkRemove] at he
            simp only [hpa, if_neg, Bool.not_eq_true] at he
            simp only [allElems, List.mem_cons, List.nil_append] at he
            rcases he with rfl | he
            · exact Bool.not_eq_true _ |>.mp hpa
            · exact ih e he
      | sq t items =>
          by_cases hpa : p (DElem.sq t items)
          · rw [walkRemove] at he
            simp only [hpa, if_pos] at he
            exact ih e he
          · rw [walkRemove] at he
            simp only [hpa, if_neg, Bool.not_eq_true] at he
            simp only [allElems, List.mem_cons, List.mem_append] at he
            rcases he with rfl | he | he
            · rw [hp t (walkRemoveItems p items) items]
              exact Bool.not_eq_true _ |>.mp hpa
            · exact walkRemoveItems_no_match p hp items e he
            · exact ih e he

/-- Item-dataset version of `walkRemove_no_match`. -/
theorem walkRemoveItems_no_match (p : DElem → Bool) (hp : ItemBlind p) :
    ∀ items : List (List DElem),
      ∀ e ∈ allElemsItems (walkRemoveItems p items), p e = false
  | [], e, he => by simp [walkRemoveItems, allElemsItems] at he
  | d :: ds, e, he => by
      rw [walkRemoveItems] at he
      simp only [allElemsItems, List.mem_append] at he
      rcases he with he | he
      · exact walkRemove_no_match p hp d e he
      · exact walkRemoveItems_no_match p hp ds e he
end

mutual
/-- A deleting walk over a dataset none of whose elements (at any
depth) match is a no-op: deleting absent tags leaves the dataset
unchanged. -/
theorem walkRemove_of_no_match (p : DElem → Bool) :
    ∀ ds : List DElem, (∀ e ∈ allElems ds, p e = false) →
      walkRemove p ds = ds
  | [], _ => by simp [walkRemove]
  | a :: rest, h => by
      have ha : p a = false := h a (by cases a <;> simp [allElems])
      have hrest : ∀ e ∈ allElems rest, p e = false := by
        intro e he
        refine h e ?_
        cases a <;> simp [allElems] <;> right <;> simp [he]
      have ih := walkRemove_of_no_match p rest hrest
      cases a with
      | prim t v s => simp [walkRemove, ha, ih]
      | sq t items =>
          have hitems : ∀ e ∈ allElemsItems items, p e = false := by
            intro e he
            refine h e ?_
            simp [allElems]
            right; left; exact he
          have ihi := walkRemoveItems_of_no_match p items hitems
          simp [walkRemove, ha, ih, ihi]

/-- Item-dataset version of `walkRemove_of_no_match`. -/
theorem walkRemoveItems_of_no_match (p : DElem → Bool) :
    ∀ items : List (List DElem),
      (∀ e ∈ allElemsItems items, p e = false) →
      walkRemoveItems p items = items
  | [], _ => by simp [walkRemoveItems]
  | d :: ds, h => by
      have h1 : ∀ e ∈ allElems d, p e = false := by
        intro e he; exact h e (by simp [allElemsItems]; left; exact he)
      have h2 : ∀ e ∈ allElemsItems ds, p e = false := by
        intro e he; exact h e (by simp [allElemsItems]; right; exact he)
      simp [walkRemoveItems, walkRemove_of_no_match p d h1,
        walkRemoveItems_of_no_match p ds h2]
end

/-- The deleting walk is idempotent for item-blind predicates: a
second pass finds nothing left to delete. -/
theorem walkRemove_idem (p : DElem → Bool) (hp : ItemBlind p)
    (ds : List DElem) :
    walkRemove p (walkRemove p ds) = walkRemove p ds :=
  walkRemove_of_no_match p (walkRemove p ds) (walkRemove_no_match p hp ds)

mutual
/-- Exact visit accounting for the deleting walk: the callback is
invoked once per element of the original dataset pruned at matched
elements — a matched element is itself still visited (then deleted),
but the elements inside its items never are. -/
theorem walkVisited_eq_prune (p : DElem → Bool) :
    ∀ ds : List DElem,
      walkVisited p ds = (allElems (pruneMatched p ds)).map DElem.tag
  | [] => by simp [walkVisited, pruneMatched, allElems]
  | e :: rest => by
      have ih := walkVisited_eq_prune p rest
      cases e with
      | prim t v s =>
          by_cases hp : p (DElem.prim t v s) <;>
            simp [walkVisited, pruneMatched, allElems, hp, ih, DElem.tag]
      | sq t items =>
          have ihi := walkVisitedItems_eq_prune p items
          by_cases hp : p (DElem.sq t items) <;>
            simp [walkVisited, pruneMatched, allElems, allElemsItems, hp, ih,
              ihi, DElem.tag]

/-- Item-dataset version of `walkVisited_eq_prune`. -/
theorem walkVisitedItems_eq_prune (p : DElem → Bool) :
    ∀ items : List (List DElem),
      walkVisitedItems p items =
        (allElemsItems (pruneMatchedItems p items)).map DElem.tag
  | [] => by simp [walkVisitedItems, pruneMatchedItems, allElemsItems]
  | d :: ds => by
      have ih1 := walkVisited_eq_prune p d
      have ih2 := walkVisitedItems_eq_prune p ds
      simp [walkVisitedItems, pruneMatchedItems, allElemsItems, ih1, ih2]
end

/-- Siblings are never skipped: every element of the dataset being
walked is visited, whatever the callback deleted before reaching it. -/
theorem walkVisited_top_level (p : DElem → Bool) :
    ∀ ds : List DElem, ∀ e ∈ ds, e.tag ∈ walkVisited p ds
  | a :: rest, e, he => by
      rcases List.mem_cons.mp he with rfl | hm
      · cases e <;> simp [walkVisited]
      · cases a <;>
          (simp only [walkVisited, List.mem_cons, List.mem_append]
           right; right
           exact walkVisited_top_level p rest e hm)

mutual
/-- When nothing matches, pruning is the identity. -/
theorem pruneMatched_of_no_match (p : DElem → Bool) :
    ∀ ds : List DElem, (∀ e ∈ allElems ds, p e = false) →
      pruneMatched p ds = ds
  | [], _ => by simp [pruneMatched]
  | a :: rest, h => by
      have ha : p a = false := h a (by cases a <;> simp [allElems])
      have hrest : ∀ e ∈ allElems rest, p e = false := by
        intro e he
        refine h e ?_
        cases a <;> simp [allElems] <;> right <;> simp [he]
      have ih := pruneMatched_of_no_match p rest hrest
      cases a with
      | prim t v s => simp [pruneMatched, ha, ih]
      | sq t items =>
          have hitems : ∀ e ∈ allElemsItems items, p e = false := by
            intro e he
            refine h e ?_
            simp [allElems]
            right; left; exact he
          have ihi := pruneMatchedItems_of_no_match p items hitems
          simp [pruneMatched, ha, ih, ihi]

/-- Item-dataset version of `pruneMatched_of_no_match`. -/
theorem pruneMatchedItems_of_no_match (p : DElem → Bool) :
    ∀ items : List (List DElem),
      (∀ e ∈ allElemsItems items, p e = false) →
      pruneMatchedItems p items = items
  | [], _ => by simp [pruneMatchedItems]
  | d :: ds, h => by
      have h1 : ∀ e ∈ allElems d, p e = false := by
        intro e he; exact h e (by simp [allElemsItems]; left; exact he)
      have h2 : ∀ e ∈ allElemsItems ds, p e = false := by
        intro e he; exact h e (by simp [allElemsItems]; right; exact he)
      simp [pruneMatchedItems, pruneMatched_of_no_match p d h1,
        pruneMatchedItems_of_no_match p ds h2]
end

/-- `specKeep` only looks at the predicate pointwise. -/
theorem specKeep_congr (p q : DElem → Bool) (h : ∀ e, p e = q e)
    (ds : List DElem) : specKeep p ds = specKeep q ds := by
  have hpq : p = q := funext h
  rw [hpq]

/-- Appending `.bak` never yields the original path back. -/
theorem bakPath_ne (fp : String) : bakPath fp ≠ fp := by
  intro h
  have hl := congrArg String.length h
  rw [bakPath, String.length_append] at hl
  have h4 : (".bak" : String).length = 4 := rfl
  rw [h4] at hl
  omega

/-- C1: for every dataset (with its file-meta), running with
`--rm-vr DA` removes every element whose VR is "DA" from both the main
dataset and the file-meta, including elements nested inside sequence
items (the result is exactly the recursive filter keeping the non-"DA"
elements, so every element whose VR is not "DA" is retained, unchanged
apart from the removal of matching elements inside its sequence
items). -/
theorem c1_rm_vr_da_removes_exactly_da (f : DicomFile) :
    ∃ g : DicomFile,
      applyRemovals
        { no_backup := false, rm_private := false, rm_vr := some ["DA"],
          rm_group := none, rm_tag := none } f = some g ∧
      g.dataset = specKeep (fun e => !(e.vr == "DA")) f.dataset ∧
      g.file_meta = specKeep (fun e => !(e.vr == "DA")) f.file_meta ∧
      (∀ e ∈ allElems g.dataset, ¬ e.vr = "DA") ∧
      (∀ e ∈ allElems g.file_meta, ¬ e.vr = "DA") := by
  have hblind : ItemBlind (fun e => ["DA"].contains e.vr) := fun _ _ _ => rfl
  have heq : ∀ X : List DElem,
      remove_vr_tags X ["DA"] = specKeep (fun e => !(e.vr == "DA")) X := by
    intro X
    rw [remove_vr_tags, walkRemove_eq_specKeep]
    exact specKeep_congr _ _
      (fun e => by by_cases h : e.vr = "DA" <;> simp [h]) X
  have hno : ∀ X : List DElem, ∀ e ∈ allElems (remove_vr_tags X ["DA"]),
      ¬ e.vr = "DA" := by
    intro X e he
    have hf := walkRemove_no_match (fun e => ["DA"].contains e.vr) hblind X e he
    simpa using hf
  exact ⟨⟨remove_vr_tags f.file_meta ["DA"], remove_vr_tags f.dataset ["DA"]⟩,
    rfl, heq f.dataset, heq f.file_meta, hno f.dataset, hno f.file_meta⟩

/-- C2: running with `--rm-group 0x0018` removes exactly the elements
whose tag group is 0x0018 (at any depth, from the main dataset and the
file-meta) and no others; a file with no group-0x0018 element at any
depth is unchanged by the pass. -/
theorem c2_rm_group_0018_exact (f : DicomFile) :
    ∃ g : DicomFile,
      applyRemovals
        { no_backup := false, rm_private := false, rm_vr := none,
          rm_group := some ["0x0018"], rm_tag := none } f = some g ∧
      g.dataset = specKeep (fun e => !(e.group == 0x0018)) f.dataset ∧
      g.file_meta = specKeep (fun e => !(e.group == 0x0018)) f.file_meta ∧
      (∀ e ∈ allElems g.dataset, ¬ e.group = 0x0018) ∧
      (∀ e ∈ allElems g.file_meta, ¬ e.group = 0x0018) ∧
      ((∀ e ∈ allElems f.dataset, ¬ e.group = 0x0018) →
       (∀ e ∈ allElems f.file_meta, ¬ e.group = 0x0018) → g = f) := by
  obtain ⟨fm, ds⟩ := f
  have hblind : ItemBlind (fun e => [0x0018].contains e.group) := fun _ _ _ => rfl
  have heq : ∀ X : List DElem,
      walkRemove (fun e => [0x0018].contains e.group) X =
        specKeep (fun e => !(e.group == 0x0018)) X := by
    intro X
    rw [walkRemove_eq_specKeep]
    exact specKeep_congr _ _
      (fun e => by by_cases h : e.group = 0x0018 <;> simp [h]) X
  have hno : ∀ X : List DElem,
      ∀ e ∈ allElems (walkRemove (fun e => [0x0018].contains e.group) X),
      ¬ e.group = 0x0018 := by
    intro X e he
    have hf := walkRemove_no_match (fun e => [0x0018].contains e.group) hblind X e he
    simpa using hf
  refine ⟨⟨walkRemove (fun e => [0x0018].contains e.group) fm,
           walkRemove (fun e => [0x0018].contains e.group) ds⟩,
    rfl, heq ds, heq fm, hno ds, hno fm, ?_⟩
  intro h1 h2
  have hd := walkRemove_of_no_match (fun e => [0x0018].contains e.group) ds
    (fun e he => by simpa using h1 e he)
  have hm := walkRemove_of_no_match (fun e => [0x0018].contains e.group) fm
    (fun e he => by simpa using h2 e he)
  simp only [DicomFile.mk.injEq]
  exact ⟨hm, hd⟩

/-- C3: running with `--rm-tag PatientName` resolves the keyword
through the DICOM dictionary to tag (0010,0010) and removes exactly
the elements with that tag (at any depth, from the main dataset and
the file-meta) and nothing else, and the pass is idempotent: running
it again on the already-cleaned file changes nothing. -/
theorem c3_rm_tag_patient_name (f : DicomFile) :
    pyTag "PatientName" = some 0x00100010 ∧
    ∃ g : DicomFile,
      applyRemovals
        { no_backup := false, rm_private := false, rm_vr := none,
          rm_group := none, rm_tag := some ["PatientName"] } f = some g ∧
      g.dataset = specKeep (fun e => !(e.tag == 0x00100010)) f.dataset ∧
      g.file_meta = specKeep (fun e => !(e.tag == 0x00100010)) f.file_meta ∧
      applyRemovals
        { no_backup := false, rm_private := false, rm_vr := none,
          rm_group := none, rm_tag := some ["PatientName"] } g = some g := by
  obtain ⟨fm, ds⟩ := f
  have heq : ∀ X : List DElem,
      remove_tags X [0x00100010] =
        specKeep (fun e => !(e.tag == 0x00100010)) X := by
    intro X
    rw [remove_tags, walkRemove_eq_specKeep]
    exact specKeep_congr _ _
      (fun e => by by_cases h : e.tag = 0x00100010 <;> simp [h]) X
  have hid : ∀ X : List DElem,
      remove_tags (remove_tags X [0x00100010]) [0x00100010] =
        remove_tags X [0x00100010] :=
    fun X => walkRemove_idem
      (fun e => [(0x00100010 : Nat)].contains e.tag) (fun _ _ _ => rfl) X
  refine ⟨rfl, ⟨remove_tags fm [0x00100010], remove_tags ds [0x00100010]⟩,
    rfl, heq ds, heq fm, ?_⟩
  have hstep : applyRemovals
      { no_backup := false, rm_private := false, rm_vr := none,
        rm_group := none, rm_tag := some ["PatientName"] }
      (DicomFile.mk (remove_tags fm [0x00100010])
        (remove_tags ds [0x00100010])) =
      some (DicomFile.mk
        (remove_tags (remove_tags fm [0x00100010]) [0x00100010])
        (remove_tags (remove_tags ds [0x00100010]) [0x00100010])) := rfl
  rw [hstep, hid, hid]

/-- C4: with all removal modes active, the passes are applied to the
loaded dataset in source order — private-tag removal, then VR removal,
then group removal, then explicit-tag removal — where the VR, group
and tag passes each also rewrite the file-meta sub-dataset, while the
private-tag pass leaves the file-meta untouched. -/
theorem c4_pass_order (nb : Bool) (vrs gs ts : List String)
    (group_rm tag_rm : List Nat)
    (hg : gs.mapM pyIntHex = some group_rm)
    (ht : ts.mapM pyTag = some tag_rm)
    (hts : ts ≠ []) (f : DicomFile) :
    applyRemovals
      { no_backup := nb, rm_private := true, rm_vr := some vrs,
        rm_group := some gs, rm_tag := some ts } f =
      some (tagPassParsed tag_rm
        (groupPassParsed group_rm (vrPass vrs (privatePass f)))) ∧
    (privatePass f).file_meta = f.file_meta := by
  constructor
  · have hts' : ts.isEmpty = false := by
      cases ts with
      | nil => exact absurd rfl hts
      | cons a l => rfl
    have h1 : ∀ X : List DElem, remove_group_tags X gs =
        some (walkRemove (fun e => group_rm.contains e.group) X) := by
      intro X
      rw [remove_group_tags, hg]
      rfl
    have e1 : applyRemovals
        { no_backup := nb, rm_private := true, rm_vr := some vrs,
          rm_group := some gs, rm_tag := some ts } f =
        (remove_group_tags (vrPass vrs (privatePass f)).dataset gs).bind
          (fun d =>
            (remove_group_tags (vrPass vrs (privatePass f)).file_meta
                gs).bind
              (fun m =>
                if ts.isEmpty then some (DicomFile.mk m d)
                else
                  (ts.mapM pyTag).bind fun tl =>
                    some (DicomFile.mk (remove_tags m tl)
                      (remove_tags d tl)))) := rfl
    rw [e1]
    simp only [h1, hts', ht, Option.some_bind, Bool.false_eq_true,
      if_false]
    rfl
  · rfl

/-- C5: a file whose file-meta SOP-class value identifies it as a
DICOMDIR is skipped entirely, whatever the flags: the per-file loop
body performs no filesystem action at all — in particular no backup
copy and no rewrite, the DICOMDIR check coming before the backup. -/
theorem c5_dicomdir_skipped (args : Args) (fp : String) (f : DicomFile)
    (h : isDicomDir f = true) :
    processFile args fp f = some [] := by
  simp [processFile, h]

/-- C6: for a processed (non-DICOMDIR) file, without `--no-backup` the
loop body first copies the original file to `<name>.bak` and only then
saves the mutated dataset over the original path, so after the run the
backup holds the original bytes and the original path the mutated
dataset; with `--no-backup` no copy action is performed. -/
theorem c6_backup_invariant (args : Args) (fp : String) (f g : DicomFile)
    (fs : Fs) (hdir : isDicomDir f = false)
    (hrem : applyRemovals args f = some g) :
    (args.no_backup = false →
      processFile args fp f =
        some [FsAction.copy fp (bakPath fp), FsAction.save fp g] ∧
      runFs [FsAction.copy fp (bakPath fp), FsAction.save fp g] fs
        (bakPath fp) = fs fp ∧
      runFs [FsAction.copy fp (bakPath fp), FsAction.save fp g] fs fp =
        some g) ∧
    (args.no_backup = true →
      processFile args fp f = some [FsAction.save fp g]) := by
  constructor
  · intro hnb
    refine ⟨by simp [processFile, hdir, hnb, hrem], ?_, ?_⟩
    · simp [runFs, bakPath_ne fp]
    · simp [runFs]
  · intro hnb
    simp [processFile, hdir, hnb, hrem]

/-- C7: file discovery fails fatally in exactly two cases, each with a
fixed-format stderr message and exit code 1 — (a) the input path is
neither a file nor a directory, (b) no DICOM files were found; in
every other case the recognized files are returned and non-DICOM files
are silently skipped. -/
theorem c7_discovery_failure_modes :
    (∀ p : String, make_dcm_fp_list (InputPath.neither p) =
      Except.error ⟨"ERROR: " ++ p ++ " is neither a file or directory\n", 1⟩) ∧
    (∀ pth : InputPath, (∀ p, pth ≠ InputPath.neither p) →
      discoveredFiles pth = [] →
      make_dcm_fp_list pth =
        Except.error ⟨"ERROR: No valid DICOM files found, exiting\n", 1⟩) ∧
    (∀ pth : InputPath, discoveredFiles pth ≠ [] →
      make_dcm_fp_list pth = Except.ok (discoveredFiles pth)) := by
  refine ⟨fun p => rfl, ?_, ?_⟩
  · intro pth hne hempty
    cases pth with
    | neither p => exact absurd rfl (hne p)
    | file p d =>
        cases d with
        | true => simp [discoveredFiles] at hempty
        | false => rfl
    | dir p files =>
        simp only [discoveredFiles] at hempty
        simp [make_dcm_fp_list, hempty]
  · intro pth hne
    cases pth with
    | neither p => simp [discoveredFiles] at hne
    | file p d =>
        cases d with
        | true => rfl
        | false => simp [discoveredFiles] at hne
    | dir p files =>
        simp only [discoveredFiles] at hne
        simp [make_dcm_fp_list, discoveredFiles, hne]

/-- C8 (amended): the deleting walk is total and visits each element
of the dataset exactly once pruned at matched elements — a matched
element is itself visited before deletion, but the elements nested
inside a deleted sequence element are removed without being visited;
deleting an element never skips or duplicates visits to its siblings,
and on a dataset with no matching element the walk visits every
element (at all depths) exactly once and changes nothing, so deleting
a non-matching or already-absent tag is a no-op. -/
theorem c8_walk_visit_accounting (p : DElem → Bool) (ds : List DElem) :
    walkVisited p ds = (allElems (pruneMatched p ds)).map DElem.tag ∧
    (∀ e ∈ ds, e.tag ∈ walkVisited p ds) ∧
    ((∀ e ∈ allElems ds, p e = false) →
      walkVisited p ds = (allElems ds).map DElem.tag ∧
      walkRemove p ds = ds) := by
  refine ⟨walkVisited_eq_prune p ds, walkVisited_top_level p ds, ?_⟩
  intro h
  exact ⟨by rw [walkVisited_eq_prune p ds, pruneMatched_of_no_match p ds h],
    walkRemove_of_no_match p ds h⟩

/-- C8 counterexample: under the `--rm-group 0x0018` removal predicate
the dataset `exSeqDs` has two elements (a group-0x0018 sequence and
one element nested in its item), yet the walk only ever visits the
sequence element: the nested element is removed without being visited,
refuting "every element is visited exactly once per pass" as stated. -/
theorem c8_counterexample_nested_unvisited :
    remove_group_tags exSeqDs ["0x0018"] = some [] ∧
    (allElems exSeqDs).map DElem.tag = [0x00181000, 0x00100010] ∧
    walkVisited (fun e => [0x0018].contains e.group) exSeqDs =
      [0x00181000] ∧
    0x00100010 ∉ walkVisited (fun e => [0x0018].contains e.group) exSeqDs := by
  have h24 : (["0x0018"].mapM pyIntHex) = some [0x0018] := rfl
  have hvis : walkVisited (fun e => [0x0018].contains e.group) exSeqDs =
      [0x00181000] := by
    simp [exSeqDs, walkVisited, walkVisitedItems, DElem.group, DElem.tag]
  refine ⟨?_, ?_, hvis, ?_⟩
  · rw [remove_group_tags, h24]
    simp [exSeqDs, walkRemove, walkRemoveItems, DElem.group, DElem.tag]
  · simp [exSeqDs, allElems, allElemsItems, DElem.tag]
  · rw [hvis]
    decide

/-- C9: invoking the CLI with no arguments (argv holding only the
program name) makes `main` append `-h`, so argument parsing prints the
help text and the process exits successfully with status 0. -/
theorem c9_no_args_prints_help (prog : String) :
    cliEarlyExit [prog] = some (true, 0) := rfl

/-- C10: a discovered non-DICOMDIR file is backed up (unless
`--no-backup`) and rewritten even when no removal flag is active: the
loop body still performs the save action with the (unchanged) dataset
over the original path. -/
theorem c10_rewrite_always (nb : Bool) (fp : String) (f : DicomFile)
    (h : isDicomDir f = false) :
    processFile
      { no_backup := nb, rm_private := false, rm_vr := none,
        rm_group := none, rm_tag := none } fp f =
      some ((if nb then [] else [FsAction.copy fp (bakPath fp)]) ++
        [FsAction.save fp f]) := by
  simp [processFile, h, applyRemovals]

/-- Witness for C2: a concrete file without group-0x0018 elements is
unchanged by the `--rm-group 0x0018` pass. -/
theorem c2_witness :
    applyRemovals
      { no_backup := false, rm_private := false, rm_vr := none,
        rm_group := some ["0x0018"], rm_tag := none } exFileNoG18 =
      some exFileNoG18 := by
  obtain ⟨g, hg, -, -, -, -, himp⟩ := c2_rm_group_0018_exact exFileNoG18
  have h1 : ∀ e ∈ allElems exFileNoG18.dataset, ¬ e.group = 0x0018 := by
    simp [exFileNoG18, allElems, allElemsItems, DElem.group, DElem.tag]
  have h2 : ∀ e ∈ allElems exFileNoG18.file_meta, ¬ e.group = 0x0018 := by
    simp [exFileNoG18, allElems, allElemsItems, DElem.group, DElem.tag]
  rw [hg, himp h1 h2]

/-- Witness for C4 at a concrete file and concrete flag values. -/
theorem c4_witness :
    applyRemovals
      { no_backup := false, rm_private := true, rm_vr := some ["DA"],
        rm_group := some ["0x0018"], rm_tag := some ["PatientName"] }
      exFile =
      some (tagPassParsed [0x00100010]
        (groupPassParsed [0x0018] (vrPass ["DA"] (privatePass exFile)))) ∧
    (privatePass exFile).file_meta = exFile.file_meta :=
  c4_pass_order false ["DA"] ["0x0018"] ["PatientName"] [0x0018]
    [0x00100010] rfl rfl (by decide) exFile

/-- Witness for C5: a concrete DICOMDIR file is skipped even with
removal flags active and backups enabled. -/
theorem c5_witness :
    processFile
      { no_backup := false, rm_private := true, rm_vr := some ["DA"],
        rm_group := none, rm_tag := none } "DICOMDIR" exDicomDir =
      some [] :=
  c5_dicomdir_skipped
    { no_backup := false, rm_private := true, rm_vr := some ["DA"],
      rm_group := none, rm_tag := none } "DICOMDIR" exDicomDir rfl

/-- Witness for C6 at a concrete file and filesystem. -/
theorem c6_witness :
    processFile
      { no_backup := false, rm_private := false, rm_vr := none,
        rm_group := none, rm_tag := none } "scan.dcm" exFile =
      some [FsAction.copy "scan.dcm" (bakPath "scan.dcm"),
        FsAction.save "scan.dcm" exFile] ∧
    runFs [FsAction.copy "scan.dcm" (bakPath "scan.dcm"),
      FsAction.save "scan.dcm" exFile] exFs (bakPath "scan.dcm") =
      exFs "scan.dcm" ∧
    runFs [FsAction.copy "scan.dcm" (bakPath "scan.dcm"),
      FsAction.save "scan.dcm" exFile] exFs "scan.dcm" = some exFile :=
  (c6_backup_invariant
    { no_backup := false, rm_private := false, rm_vr := none,
      rm_group := none, rm_tag := none } "scan.dcm" exFile exFile exFs
    rfl rfl).1 rfl

/-- Witness for C7: a concrete directory with one non-DICOM and one
DICOM file yields the DICOM file only, with no error. -/
theorem c7_witness :
    make_dcm_fp_list
      (InputPath.dir "dir1"
        [("dir1/not_dicom", false), ("dir1/test_1.dcm", true)]) =
      Except.ok ["dir1/test_1.dcm"] :=
  c7_discovery_failure_modes.2.2
    (InputPath.dir "dir1"
      [("dir1/not_dicom", false), ("dir1/test_1.dcm", true)])
    (by decide)

/-- Witness for C8 (amended) at a concrete dataset with no matching
element: every element at every depth is visited once and the walk
changes nothing. -/
theorem c8_witness :
    walkVisited (fun e => ["XX"].contains e.vr) exFile.dataset =
      (allElems exFile.dataset).map DElem.tag ∧
    walkRemove (fun e => ["XX"].contains e.vr) exFile.dataset =
      exFile.dataset :=
  (c8_walk_visit_accounting (fun e => ["XX"].contains e.vr)
    exFile.dataset).2.2
    (by simp [exFile, allElems, allElemsItems, DElem.vr])

/-- Witness for C10 at a concrete file. -/
theorem c10_witness :
    processFile
      { no_backup := false, rm_private := false, rm_vr := none,
        rm_group := none, rm_tag := none } "scan.dcm" exFile =
      some ((if false then []
        else [FsAction.copy "scan.dcm" (bakPath "scan.dcm")]) ++
        [FsAction.save "scan.dcm" exFile]) :=
  c10_rewrite_always false "scan.dcm" exFile rfl
